import Mathlib

/-!
# Verification of the sportsclips streaming pipeline engine

A shallow embedding of the core of the sportsclips repository
(`agent/src/pipeline.py`, `agent/src/live.py`, `agent/src/stream.py` and the
three LLM stage modules), together with theorems settling the frozen claims
about the natural-language specification.

Conventions:
* byte buffers are modelled as `List Nat` (`Bytes`);
* external subprocess calls (ffmpeg, yt-dlp) and LLM calls are modelled by
  explicit oracle parameters or by outcome datatypes, so every embedded
  function is a total, executable Lean function;
* Python dict metadata bags are modelled as structures with `Option` fields,
  a `none` field meaning the key is absent.
-/

namespace Sportsclips

/-- A byte buffer (Python `bytes`). -/
abbrev Bytes := List Nat

/- ## Media-transform toolkit -/

/--
Embedding of `_concatenate_chunks` (`agent/src/pipeline.py`, also duplicated
as `concatenate_chunks` in `agent/src/live.py` and in the trim/detect steps):
0 chunks give empty bytes, 1 chunk is passed through unchanged, otherwise the
list is handed to ffmpeg demux-mux concat.  The ffmpeg invocation is modelled
by the oracle `ff`; `none` models `subprocess.CalledProcessError`, in which
case the code falls back to returning the first chunk.
-/
def concatenate_chunks (ff : List Bytes → Option Bytes) (chunks : List Bytes) : Bytes :=
  match chunks with
  | [] => []
  | [c] => c
  | c :: _ :: _ =>
    match ff chunks with
    | some out => out
    | none => c

/- ## stitch_audio_video (agent/src/live.py) -/

/--
The exact ffmpeg argument list built by `stitch_audio_video`
(`agent/src/live.py`): video stream copied, PCM re-encoded as AAC, and the
`-shortest` flag ("Match shortest stream duration") present.
-/
def stitch_audio_video_cmd (videoFile audioFile outFile : String)
    (sampleRate : Nat) : List String :=
  ["ffmpeg",
   "-i", videoFile,
   "-f", "s16le",
   "-ar", toString sampleRate,
   "-ac", "1",
   "-i", audioFile,
   "-c:v", "copy",
   "-c:a", "aac",
   "-map", "0:v:0",
   "-map", "1:a:0",
   "-shortest",
   outFile]

/--
Modelled from the spec: the transcoder (ffmpeg) is an external collaborator,
out of scope of the repository; the spec's design note states that the
"stop at shortest stream" flag (`-shortest`) truncates the remuxed output to
the shorter input stream's duration, while without it the video track's full
duration is preserved.  Durations are in whole seconds.
-/
def remuxOutputDuration (cmd : List String) (videoDur audioDur : Nat) : Nat :=
  if cmd.contains "-shortest" then min videoDur audioDur else videoDur

/-- Duration of the MP4 produced by `stitch_audio_video` for a video of
`videoDur` seconds and PCM audio of `audioDur` seconds. -/
def stitch_output_duration (videoDur audioDur sampleRate : Nat) : Nat :=
  remuxOutputDuration
    (stitch_audio_video_cmd "video.mp4" "audio.pcm" "output.mp4" sampleRate)
    videoDur audioDur

/- ## Liveness probe (agent/src/stream.py, is_live_stream) -/

/-- The fields of the yt-dlp `--dump-json` metadata inspected by
`is_live_stream`. -/
structure ProbeInfo where
  is_live : Bool
  live_status : String
deriving DecidableEq, Repr

/--
Outcome of the single `yt-dlp --dump-json` subprocess run performed by
`is_live_stream`: either some exception was raised (timeout, missing binary,
…), or the process completed with a return code and — when stdout parsed as
JSON — the parsed metadata (`none` models `json.JSONDecodeError`).
-/
inductive ProbeOutcome where
  | exc
  | run (returncode : Int) (parsed : Option ProbeInfo)
deriving DecidableEq, Repr

/--
Embedding of `is_live_stream` (`agent/src/stream.py`).  Returns
`(result, cacheDirRemoved)`.  Every failure path returns `false`; the
`finally` block removing the isolated cache directory runs on every path,
so the second component is `true` unconditionally.  Totality of this
function models "never raises": the Python body wraps everything in
`try/except Exception`.
-/
def is_live_stream (o : ProbeOutcome) : Bool × Bool :=
  match o with
  | .exc => (false, true)
  | .run rc parsed =>
    if rc ≠ 0 then (false, true)
    else
      match parsed with
      | none => (false, true)
      | some info =>
        (info.is_live || (info.live_status = "is_live" || info.live_status = "is_upcoming"),
         true)

/-- A probe attempt that did not produce usable live metadata: an exception,
a non-zero downloader exit, or unparseable JSON. -/
def probeFailed (o : ProbeOutcome) : Bool :=
  match o with
  | .exc => true
  | .run rc parsed => rc ≠ 0 || parsed.isNone

/- ## Trim stage (agent/src/steps/trim_highlight/step.py) -/

/--
Result of parsing the trim LLM response in `HighlightTrimmer.trim_highlight`:
the regex found an integer range `a-b`, or no range was found
(`ValueError` path), or an exception was raised further up.
-/
inductive TrimParse where
  | range (a b : Nat)
  | noRange
  | exc (msg : String)
deriving DecidableEq, Repr

/-- The bound validation in `HighlightTrimmer.trim_highlight`:
`max(1, min(x, 7))` — the upper clamp is the hard-coded literal `7`. -/
def clampSegment (x : Nat) : Nat := max 1 (min x 7)

/--
Segment selection of `HighlightTrimmer.trim_highlight` on a parsed range
`[a, b]`: clamp both bounds with `clampSegment`, swap if inverted, then take
the Python slice `chunks[start-1 : end]`.
-/
def trim_select (chunks : List Bytes) (a b : Nat) : List Bytes :=
  let sc := clampSegment a
  let ec := clampSegment b
  let s := if sc > ec then ec else sc
  let e := if sc > ec then sc else ec
  (chunks.drop (s - 1)).take (e - (s - 1))

/--
Embedding of the body of `HighlightTrimmer.trim_highlight` after the LLM
response is parsed: on a parsed range, concatenate the selected slice; on a
parse failure, fall back to the full concatenated window
(`trim_method="gemini_llm_fallback"`); on an exception, likewise
(`trim_method="error_fallback"`).  Returns the video and the `trim_method`
metadata value.
-/
def trim_highlight (ff : List Bytes → Option Bytes) (p : TrimParse)
    (chunks : List Bytes) : Bytes × String :=
  match p with
  | .range a b => (concatenate_chunks ff (trim_select chunks a b), "gemini_llm")
  | .noRange => (concatenate_chunks ff chunks, "gemini_llm_fallback")
  | .exc _ => (concatenate_chunks ff chunks, "error_fallback")

/-- A 9-chunk window whose i-th chunk is the singleton buffer `[i]`,
matching the pipeline's default `window_size = 9`. -/
def nineChunkWindow : List Bytes := (List.range 9).map (fun i => [i])

/- ## Detect stage (agent/src/steps/detect_highlight/step.py) -/

/--
The LLM response inspected by `detect_highlight_step`: either a function-call
dict (with its `name` and the three optional `report_highlight_detection`
arguments, `none` modelling a missing key), or a plain text response.
-/
inductive DetectResponse where
  | funcCall (fname : String) (isHl : Option Bool) (confidence : Option String)
      (reason : Option String)
  | text (s : String)
deriving DecidableEq, Repr

/-- Outcome of one stage body: the LLM call returned a value, or some
exception was raised inside the stage's `try` block. -/
inductive StageResult (α : Type) where
  | ok (val : α)
  | exc (msg : String)
deriving DecidableEq, Repr

/-- The metadata keys written by `detect_highlight_step`; `none` = absent. -/
structure DetectMeta where
  detection_method : Option String := none
  detection_error : Option String := none
  is_highlight : Option Bool := none
  detection_confidence : Option String := none
  detection_reason : Option String := none
deriving DecidableEq, Repr

/--
Embedding of `detect_highlight_step` (`agent/src/steps/detect_highlight/step.py`):
a function call named `report_highlight_detection` yields its `is_highlight`
argument (defaulting each missing argument as the Python `args.get` does);
any other response shape takes the "function calling didn't work" fallback and
returns `true`; an exception takes the error fallback and returns `false`
with `detection_method="error"` and the diagnostic string.
-/
def detect_highlight_step (res : StageResult DetectResponse) (m : DetectMeta) :
    Bool × DetectMeta :=
  match res with
  | .exc e =>
    (false, { m with detection_method := some "error", detection_error := some e })
  | .ok (.funcCall fname isHl confidence reason) =>
    if fname = "report_highlight_detection" then
      let ih := isHl.getD false
      (ih, { m with detection_method := some "gemini_llm",
                    is_highlight := some ih,
                    detection_confidence := some (confidence.getD "unknown"),
                    detection_reason := some (reason.getD "") })
    else
      (true, { m with detection_method := some "gemini_llm", is_highlight := some true })
  | .ok (.text _) =>
    (true, { m with detection_method := some "gemini_llm", is_highlight := some true })

/- ## Caption stage (agent/src/steps/caption_highlight/step.py) -/

/-- One attempt's outcome inside `HighlightCaptioner.generate_caption`:
a function-call dict, a plain text response, or a raised exception. -/
inductive CaptionAttempt where
  | funcCall (fname : String) (title description key_action : Option String)
  | text (s : String)
  | exc (msg : String)
deriving DecidableEq, Repr

/-- The metadata keys read and written by `generate_caption`. -/
structure CaptionMeta where
  window_start_time : Option Nat := none
  window_end_time : Option Nat := none
  caption_method : Option String := none
  key_action : Option String := none
  caption_attempts : Option Nat := none
  last_error : Option String := none
deriving DecidableEq, Repr

/--
The success criterion of one caption attempt: a function call named
`report_highlight_caption` whose `title` and `description` arguments are both
present and non-empty.  Returns the extracted `(title, description,
key_action)` on success.
-/
def captionSuccess (a : CaptionAttempt) : Option (String × String × String) :=
  match a with
  | .funcCall fname title description key_action =>
    if fname = "report_highlight_caption" then
      let t := title.getD ""
      let d := description.getD ""
      if t ≠ "" ∧ d ≠ "" then some (t, d, key_action.getD "") else none
    else none
  | _ => none

/-- The `last_error` diagnostic recorded for one failed caption attempt. -/
def captionFailMsg (a : CaptionAttempt) : String :=
  match a with
  | .funcCall fname title description _ =>
    if fname = "report_highlight_caption" then
      if (title.getD "") ≠ "" ∧ (description.getD "") ≠ "" then ""
      else "Missing title or description in function call"
    else "Unexpected response format: " ++ fname
  | .text s => "Unexpected response format: " ++ s
  | .exc e => e

/-- The fallback caption title used by `generate_caption`. -/
def fallbackTitle (m : CaptionMeta) : String :=
  "Highlight at " ++ toString (m.window_start_time.getD 0) ++ "s"

/-- The fallback caption description used by `generate_caption`. -/
def fallbackDescription (m : CaptionMeta) : String :=
  "Highlight detected from " ++ toString (m.window_start_time.getD 0) ++
    "s to " ++ toString (m.window_end_time.getD 0) ++ "s"

/--
The retry loop of `HighlightCaptioner.generate_caption`: `fuel` attempts
remain, `i` attempts were already made, `lastErr` is the last diagnostic.
On success return the caption with `caption_method="gemini_function_calling"`
and `caption_attempts = i+1`; once the retries are exhausted return the
fallback captions with `caption_method="retry_exhausted_fallback"`.
-/
def generate_caption_go (attempts : Nat → CaptionAttempt) (m : CaptionMeta) :
    Nat → Nat → Option String → String × String × CaptionMeta
  | 0, _, lastErr =>
    (fallbackTitle m, fallbackDescription m,
     { m with caption_method := some "retry_exhausted_fallback",
              caption_attempts := some 3,
              last_error := lastErr })
  | fuel + 1, i, _ =>
    match captionSuccess (attempts i) with
    | some (t, d, ka) =>
      (t, d, { m with caption_method := some "gemini_function_calling",
                      key_action := some ka,
                      caption_attempts := some (i + 1) })
    | none => generate_caption_go attempts m fuel (i + 1) (some (captionFailMsg (attempts i)))

/--
Embedding of `HighlightCaptioner.generate_caption`
(`agent/src/steps/caption_highlight/step.py`): up to `max_retries = 3`
attempts, success requiring both title and description non-empty.
`attempts i` is the outcome of the i-th LLM submission.
-/
def generate_caption (attempts : Nat → CaptionAttempt) (m : CaptionMeta) :
    String × String × CaptionMeta :=
  generate_caption_go attempts m 3 0 none

/-- The caption metadata of the concrete failing window used in the
caption-stage results: window start 0 s, window end 36 s. -/
def captionMetaExample : CaptionMeta :=
  { window_start_time := some 0, window_end_time := some 36 }

/- ## Producer (`SlidingWindowPipeline._produce_chunks`, agent/src/pipeline.py) -/

/--
Outcome of iterating the ingest iterator (`stream_and_chunk_video`) inside
`_produce_chunks`: the chunks yielded before the iterator either finished
normally (`StopIteration`) or raised.
-/
inductive IngestOutcome (α : Type) where
  | finished (chunks : List α)
  | failed (chunks : List α) (err : String)
deriving DecidableEq, Repr

/-- The chunks successfully yielded by the ingest iterator. -/
def IngestOutcome.chunks : IngestOutcome α → List α
  | .finished cs => cs
  | .failed cs _ => cs

/-- What `_produce_chunks` leaves behind: the items put on each consumer
queue (`none` is the end-of-stream sentinel), whether the coroutine itself
raised, and the error it logged (if any). -/
structure ProducerResult (α : Type) where
  highlight_queue : List (Option α)
  live_queue : Option (List (Option α))
  raised : Bool
  logged_error : Option String
deriving DecidableEq, Repr

/--
Embedding of `SlidingWindowPipeline._produce_chunks`
(`agent/src/pipeline.py`): every yielded chunk is put on every enabled queue;
an exception from the iterator is caught and logged (the coroutine never
re-raises); the `finally` block puts exactly one `None` sentinel on every
enabled queue on both the normal and the failure path.
-/
def produce_chunks (out : IngestOutcome α) (liveEnabled : Bool) : ProducerResult α :=
  { highlight_queue := out.chunks.map some ++ [none],
    live_queue := if liveEnabled then some (out.chunks.map some ++ [none]) else none,
    raised := false,
    logged_error :=
      match out with
      | .failed _ e => some e
      | .finished _ => none }

/-- Number of end-of-stream sentinels in a queue trace. -/
def sentinelCount (q : List (Option α)) : Nat :=
  (q.filter (fun x => x.isNone)).length

/-- The chunks a consumer dequeues before its first sentinel. -/
def queueChunks (q : List (Option α)) : List α :=
  (q.takeWhile (fun x => x.isSome)).filterMap id

/-- The concrete failing ingest run used for the producer theorems: two
chunks were yielded, then the downloader raised. -/
def ingestFailureExample : IngestOutcome Bytes :=
  .failed [[0], [1]] "yt-dlp exited with return code 1"

/- ## Highlight sliding-window consumer
     (`SlidingWindowPipeline._process_highlights_from_queue`) -/

/-- The window/slide configuration of `SlidingWindowPipeline`. -/
structure HLConfig where
  window_size : Nat
  slide_step : Nat
deriving DecidableEq, Repr

/-- `max_cache_size = max(self.window_size * 3, 20)`. -/
def maxCacheSize (cfg : HLConfig) : Nat := max (cfg.window_size * 3) 20

/-- The loop state of `_process_highlights_from_queue`.  `emitted` records,
in order, `(window_start_chunk, window_end_chunk)` of each highlight sent. -/
structure HLState (α : Type) where
  cache : List α
  total_chunks_received : Nat
  current_window_start : Nat
  last_processed_position : Int
  highlight_count : Nat
  emitted : List (Nat × Nat)
deriving DecidableEq, Repr

/-- The consumer's initial state (`last_processed_position = -1`). -/
def initHLState : HLState α :=
  { cache := [], total_chunks_received := 0, current_window_start := 0,
    last_processed_position := -1, highlight_count := 0, emitted := [] }

/-- `collections.deque(maxlen=maxLen)` append: when the deque is full the
oldest (leftmost) element is dropped. -/
def dequeAppend (maxLen : Nat) (cache : List α) (c : α) : List α :=
  if maxLen ≤ cache.length then cache.tail ++ [c] else cache ++ [c]

/-- Receiving one chunk: append it to the rolling cache and increment
`total_chunks_received`. -/
def hlArrive (cfg : HLConfig) (s : HLState α) (c : α) : HLState α :=
  { s with cache := dequeAppend (maxCacheSize cfg) s.cache c,
           total_chunks_received := s.total_chunks_received + 1 }

/-- `cache_offset = total_chunks_received - len(chunk_cache)`. -/
def hlOffset (t : HLState α) : Nat := t.total_chunks_received - t.cache.length

/-- The window start actually used this iteration: if `current_window_start`
fell out of the cache (`window_start_in_cache < 0`), it is advanced to the
oldest cached position (`cache_offset`). -/
def hlAdjustedStart (t : HLState α) : Nat := max t.current_window_start (hlOffset t)

/-- The `window_size`-chunk window extracted from the cache at the adjusted
window start. -/
def hlWindow (cfg : HLConfig) (t : HLState α) : List α :=
  (t.cache.drop (hlAdjustedStart t - hlOffset t)).take cfg.window_size

/-- Whether, after a chunk arrival leaving state `t`, this iteration reaches
the processing step: a full window is buffered, the cache holds
`window_size` chunks from the adjusted start, and the position was not
already processed. -/
def hlProcesses (cfg : HLConfig) (t : HLState α) : Bool :=
  decide (cfg.window_size ≤ t.cache.length) &&
  decide ((hlAdjustedStart t - hlOffset t) + cfg.window_size ≤ t.cache.length) &&
  decide (t.last_processed_position < (hlAdjustedStart t : Int))

/--
The guard-and-process part of one iteration of
`_process_highlights_from_queue`, applied to the state `t` right after a
chunk arrival.  Mirrors, in order: the "enough chunks buffered" check, the
cache-window bound check, the already-processed check, the
`detect_step` verdict, and the two slide rules — `+ window_size` after a
highlight was emitted, `+ slide_step` otherwise.
-/
def hlStepCore (cfg : HLConfig) (detect : List α → Nat → Bool) (t : HLState α) :
    HLState α :=
  if t.cache.length < cfg.window_size then t
  else if t.cache.length < (hlAdjustedStart t - hlOffset t) + cfg.window_size then
    { t with current_window_start := hlAdjustedStart t }
  else if (hlAdjustedStart t : Int) ≤ t.last_processed_position then
    { t with current_window_start := hlAdjustedStart t }
  else if detect (hlWindow cfg t) (hlAdjustedStart t) then
    { t with current_window_start := hlAdjustedStart t + cfg.window_size,
             last_processed_position := (hlAdjustedStart t : Int),
             highlight_count := t.highlight_count + 1,
             emitted := t.emitted ++
               [(hlAdjustedStart t, hlAdjustedStart t + cfg.window_size - 1)] }
  else
    { t with current_window_start := hlAdjustedStart t + cfg.slide_step,
             last_processed_position := (hlAdjustedStart t : Int) }

/-- One full iteration of the consumer loop on receiving chunk `c`. -/
def hlStep (cfg : HLConfig) (detect : List α → Nat → Bool) (s : HLState α)
    (c : α) : HLState α :=
  hlStepCore cfg detect (hlArrive cfg s c)

/-- The whole consumer run over the chunks received before the sentinel. -/
def hlRun (cfg : HLConfig) (detect : List α → Nat → Bool) (chunks : List α) :
    HLState α :=
  chunks.foldl (hlStep cfg detect) initHLState

/-- The server-to-client messages relevant to the pipeline claims. -/
inductive ClientMsg where
  | snippet (window_start_chunk window_end_chunk : Nat)
  | complete
  | error (msg : String)
deriving DecidableEq, Repr

/-- The messages `_process_highlights_from_queue` sends over the WebSocket
during a run: one `snippet` per emitted highlight, in emission order,
followed by the one `snippet_complete` sent after the sentinel. -/
def hlRunMessages (cfg : HLConfig) (detect : List α → Nat → Bool)
    (chunks : List α) : List ClientMsg :=
  ((hlRun cfg detect chunks).emitted.map fun e => ClientMsg.snippet e.1 e.2) ++
    [ClientMsg.complete]

/-- The pipeline's default configuration: `window_size = 9`,
`slide_step = 3`. -/
def defaultHLConfig : HLConfig := { window_size := 9, slide_step := 3 }

/-- A small configuration (`W = 3`, `S = 1`) used for concrete witnesses,
matching the spec's end-to-end scenarios. -/
def smallHLConfig : HLConfig := { window_size := 3, slide_step := 1 }

/-- The invariant maintained by the highlight consumer loop. -/
structure HLInv (cfg : HLConfig) (s : HLState α) : Prop where
  ordered : List.Pairwise (fun a b => a.2 < b.1) s.emitted
  start_le_cws : ∀ e ∈ s.emitted, e.1 + cfg.window_size ≤ s.current_window_start
  start_le_lpp : ∀ e ∈ s.emitted, (e.1 : Int) ≤ s.last_processed_position
  ends_eq : ∀ e ∈ s.emitted, e.2 = e.1 + cfg.window_size - 1

/- ## Live commentary consumer
     (`SlidingWindowPipeline._process_live_commentary_from_queue`) -/

/--
The audio the live session returns for one analysis window, with explicit
arrival times (seconds since the window's prompt was sent): each PCM chunk
carries its arrival time, and `endTime` is when the upstream turn-complete
arrives (ending the `receive_audio_chunks` generator).  The consumer's
collection loop reads these events in order and never consults the times —
the code contains no timeout.
-/
structure AudioTurn where
  events : List (Nat × Bytes)
  endTime : Nat
deriving DecidableEq, Repr

/-- The audio-collection loop: append each received chunk and break once 60
chunks were collected (`if len(audio_chunks) >= 60: break`); otherwise run
until the generator is exhausted by the turn-complete.  `n` counts chunks
already collected.  Returns the collected chunks and the time at which the
loop finished. -/
def collectAudioGo : List (Nat × Bytes) → Nat → Nat → List Bytes × Nat
  | [], _, endT => ([], endT)
  | (tm, ch) :: rest, n, endT =>
    if 60 ≤ n + 1 then ([ch], tm)
    else
      let r := collectAudioGo rest (n + 1) endT
      (ch :: r.1, r.2)

/-- The audio-collection phase for one window. -/
def collectAudio (t : AudioTurn) : List Bytes × Nat :=
  collectAudioGo t.events 0 t.endTime

/-- The external behaviour the live consumer depends on: frame extraction
from a combined window (ffmpeg), the live session's audio response for each
window number, and whether the remainder of the window's `try` block —
`stitch_audio_video`, `create_fragmented_mp4`, the message build or
`ws.send` — raises for that window (such an exception is caught by the
per-window `except Exception: continue`, skipping the window). -/
structure LiveOracle where
  extract_frames : List Bytes → List Bytes
  audio : Nat → AudioTurn
  raises : Nat → Bool

/-- The loop state of `_process_live_commentary_from_queue`.  A combined
window is represented by the list of base chunks it covers; `emitted`
records `(chunk_number, covered base chunks)` for each
`live_commentary_chunk` message sent, in order.  `terminated` is whether the
loop exited via its `break`. -/
structure LiveState where
  chunk_number : Nat
  chunk_buffer : List Bytes
  emitted : List (Nat × List Bytes)
  terminated : Bool
deriving DecidableEq, Repr

/-- The live consumer's initial state. -/
def initLiveState : LiveState :=
  { chunk_number := 0, chunk_buffer := [], emitted := [], terminated := false }

/--
Per-window processing (the body under `Processing 8-second chunk …`), for the
window whose number is `st.chunk_number` (already incremented) covering the
base chunks `combined`: skip if no frames were extracted; collect audio;
skip if the joined PCM is empty; skip if the stitch/fragment/send tail
raises (the per-window `except Exception` logs and continues); otherwise the
`live_commentary_chunk` message is sent.
-/
def liveProcessWindow (oracle : LiveOracle) (st : LiveState)
    (combined : List Bytes) : LiveState :=
  if oracle.extract_frames combined = [] then st
  else if ((collectAudio (oracle.audio st.chunk_number)).1).flatten = [] then st
  else if oracle.raises st.chunk_number then st
  else { st with emitted := st.emitted ++ [(st.chunk_number, combined)] }

/--
Embedding of the main loop of `_process_live_commentary_from_queue` over the
queue items it dequeues (`none` is the sentinel).  On the sentinel with a
buffered chunk, that chunk is processed alone as a single-chunk window and
the loop then dequeues again; with an empty buffer the loop breaks.  A chunk
arrival is buffered until a pair is complete, then the pair is processed as
one window.  When the item list is exhausted without a `break`, the returned
state has `terminated = false` — the Python coroutine would still be awaiting
`queue.get()`.
-/
def liveConsume (oracle : LiveOracle) : List (Option Bytes) → LiveState → LiveState
  | [], st => st
  | none :: rest, st =>
    if st.chunk_buffer = [] then { st with terminated := true }
    else
      liveConsume oracle rest
        (liveProcessWindow oracle
          { st with chunk_number := st.chunk_number + 1, chunk_buffer := [] }
          st.chunk_buffer)
  | some c :: rest, st =>
    if (st.chunk_buffer ++ [c]).length < 2 then
      liveConsume oracle rest { st with chunk_buffer := st.chunk_buffer ++ [c] }
    else
      liveConsume oracle rest
        (liveProcessWindow oracle
          { st with chunk_number := st.chunk_number + 1, chunk_buffer := [] }
          (st.chunk_buffer ++ [c]))

/-- A full live-consumer run over `chunks` followed by the sentinel. -/
def liveRun (oracle : LiveOracle) (chunks : List Bytes) : LiveState :=
  liveConsume oracle (chunks.map some ++ [none]) initLiveState

/-- The windows the live consumer forms from a chunk stream: consecutive
pairs numbered from `n`, with a final single-chunk window when the count is
odd. -/
def pairWindows : List Bytes → Nat → List (Nat × List Bytes)
  | [], _ => []
  | [c], n => [(n, [c])]
  | c1 :: c2 :: rest, n => (n, [c1, c2]) :: pairWindows rest (n + 1)

/-- An oracle on which every window gets frames, non-empty audio, and a
raise-free stitch/fragment/send tail. -/
def liveOracleOk : LiveOracle :=
  { extract_frames := fun _ => [[9]],
    audio := fun _ => { events := [(0, [1])], endTime := 0 },
    raises := fun _ => false }

/-- An oracle whose live session returns no audio for window 1 and audio for
every other window, never raising. -/
def liveOracleNoAudioFirst : LiveOracle :=
  { extract_frames := fun _ => [[9]],
    audio := fun n =>
      if n = 1 then { events := [], endTime := 0 }
      else { events := [(0, [1])], endTime := 0 },
    raises := fun _ => false }

/-- An oracle whose live session returns one audio chunk immediately but
whose turn-complete only arrives at t = 100 s, never raising. -/
def liveOracleSlowTurn : LiveOracle :=
  { extract_frames := fun _ => [[9]],
    audio := fun _ => { events := [(0, [1])], endTime := 100 },
    raises := fun _ => false }

/-- The invariant maintained by the live consumer loop: emitted
`chunk_number` values are pairwise strictly increasing and never exceed the
current window counter. -/
structure LiveInv (st : LiveState) : Prop where
  ordered : List.Pairwise (fun a b => a.1 < b.1) st.emitted
  le_num : ∀ e ∈ st.emitted, e.1 ≤ st.chunk_number

/- ## Theorems -/

/--
C9: `concatenate` satisfies the identity laws — on the empty chunk list it
returns the empty byte buffer, and on a single-element list `[x]` it returns
`x` unchanged, for every behaviour `ff` of the ffmpeg transcoder (so the
transcoder is not consulted).
-/
theorem concatenate_identity_laws (ff : List Bytes → Option Bytes) (x : Bytes) :
    concatenate_chunks ff [] = [] ∧ concatenate_chunks ff [x] = x := by
  constructor <;> rfl

/--
C10: the liveness probe `is_live_stream` never raises (the embedding is a
total function covering every probe outcome, including the exception case);
on every failed probe — exception, non-zero downloader exit, or unparseable
JSON — it returns `false`; and the isolated cache directory is removed on
every path.
-/
theorem is_live_stream_safe :
    (∀ o : ProbeOutcome, (is_live_stream o).2 = true) ∧
    (∀ o : ProbeOutcome, probeFailed o = true → (is_live_stream o).1 = false) := by
  constructor
  · intro o
    cases o with
    | exc => rfl
    | run rc parsed =>
      simp only [is_live_stream]
      split
      · rfl
      · cases parsed <;> rfl
  · intro o h
    cases o with
    | exc => rfl
    | run rc parsed =>
      simp only [probeFailed, Bool.or_eq_true, decide_eq_true_eq, Option.isNone_iff_eq_none] at h
      simp only [is_live_stream]
      rcases h with h | h
      · simp [h]
      · subst h
        split <;> rfl

/-- Witness for C10: evaluating the theorem at the concrete failed probe
outcome `.exc`. -/
theorem is_live_stream_safe_witness :
    (is_live_stream ProbeOutcome.exc).2 = true ∧
    (is_live_stream ProbeOutcome.exc).1 = false :=
  ⟨is_live_stream_safe.1 ProbeOutcome.exc,
   is_live_stream_safe.2 ProbeOutcome.exc (by decide)⟩

/--
C1 (evaluation at the failing input): the ffmpeg command built by
`stitch_audio_video` contains the `-shortest` flag, so for the repository's
own regression input — an 8-second video remuxed with 3 seconds of PCM at
24 kHz — the output duration is 3 seconds, truncated to the shorter (audio)
stream instead of preserving the video's full 8 seconds.
-/
theorem stitch_audio_video_truncates :
    (stitch_audio_video_cmd "video.mp4" "audio.pcm" "output.mp4" 24000).contains "-shortest" = true ∧
    stitch_output_duration 8 3 24000 = 3 ∧ stitch_output_duration 8 3 24000 ≠ 8 := by
  refine ⟨by decide, by decide, by decide⟩

/--
C2 (evaluation at the failing input): on the default 9-chunk window, when the
trim LLM returns the range `[8, 9]`, `trim_highlight` clamps both bounds to
the hard-coded literal `7` (not to the window size `W = 9`), producing the
slice `chunks[6:7]` — only chunk 7 (0-indexed 6) — instead of the claimed
`chunks[7:9]` (chunks 8 and 9).
-/
theorem trim_select_clamps_to_seven :
    trim_select nineChunkWindow 8 9 = [[6]] ∧
    trim_select nineChunkWindow 8 9 ≠ [[7], [8]] := by
  refine ⟨by decide, by decide⟩

/--
C6 counterexample: a malformed (non-function-call) LLM response makes
`detect_highlight_step` return `true` — the window IS treated as a highlight
— contradicting the claim that a window is never treated as a highlight when
the model's response is malformed.
-/
theorem detect_malformed_returns_true :
    (detect_highlight_step (StageResult.ok (DetectResponse.text "unexpected")) {}).1 = true := by
  rfl

/--
C6 as amended: when the detect_highlight stage raises an error, it returns
`false` (no highlight) with `detection_method = "error"` and the error
diagnostic; a malformed (non-function-call) response, however, takes the
"function calling didn't work" fallback and returns `true`.
-/
theorem detect_error_returns_false (e : String) (m : DetectMeta) (s : String) :
    detect_highlight_step (StageResult.exc e) m =
      (false, { m with detection_method := some "error", detection_error := some e }) ∧
    (detect_highlight_step (StageResult.ok (DetectResponse.text s)) m).1 = true := by
  exact ⟨rfl, rfl⟩

/--
C7 counterexample: when every caption attempt fails (here: three plain-text
responses) for the window 0 s–36 s, the fallback description produced by
`generate_caption` is `"Highlight detected from 0s to 36s"`, not the claimed
`"Highlight from 0s to 36s"`.
-/
theorem caption_fallback_description_differs :
    (generate_caption (fun _ => CaptionAttempt.text "bad") captionMetaExample).2.1 =
      "Highlight detected from 0s to 36s" ∧
    (generate_caption (fun _ => CaptionAttempt.text "bad") captionMetaExample).2.1 ≠
      "Highlight from 0s to 36s" := by
  refine ⟨by rfl, by decide⟩

/--
C7 as amended: for every highlight window whose caption stage fails on all of
its 3 attempts (success requiring a `report_highlight_caption` call with both
title and description non-empty), `generate_caption` returns exactly the
fallback title `"Highlight at <start_time>s"` and the fallback description
`"Highlight detected from <start_time>s to <end_time>s"`, with
`caption_method = "retry_exhausted_fallback"`, where the times come from the
window metadata.
-/
theorem caption_retry_exhausted_fallback (attempts : Nat → CaptionAttempt)
    (m : CaptionMeta)
    (h0 : captionSuccess (attempts 0) = none)
    (h1 : captionSuccess (attempts 1) = none)
    (h2 : captionSuccess (attempts 2) = none) :
    (generate_caption attempts m).1 = fallbackTitle m ∧
    (generate_caption attempts m).2.1 = fallbackDescription m ∧
    (generate_caption attempts m).2.2.caption_method = some "retry_exhausted_fallback" := by
  simp only [generate_caption, generate_caption_go, h0, h1, h2]
  exact ⟨trivial, trivial, trivial⟩

/--
Witness for C7: three plain-text responses fail every attempt, and the fall
back gives the concrete captions for the 0 s–36 s window.
-/
theorem caption_retry_exhausted_fallback_witness :
    (generate_caption (fun _ => CaptionAttempt.text "oops") captionMetaExample).1 =
      "Highlight at 0s" ∧
    (generate_caption (fun _ => CaptionAttempt.text "oops") captionMetaExample).2.1 =
      "Highlight detected from 0s to 36s" ∧
    (generate_caption (fun _ => CaptionAttempt.text "oops") captionMetaExample).2.2.caption_method =
      some "retry_exhausted_fallback" :=
  caption_retry_exhausted_fallback (fun _ => CaptionAttempt.text "oops")
    captionMetaExample rfl rfl rfl

/-- A chunk arrival changes only the cache and the received count, so the
consumer invariant is untouched. -/
theorem hlArrive_inv {cfg : HLConfig} {s : HLState α} (c : α)
    (h : HLInv cfg s) : HLInv cfg (hlArrive cfg s c) :=
  ⟨h.ordered, h.start_le_cws, h.start_le_lpp, h.ends_eq⟩

/-- The guard-and-process part of one iteration preserves the consumer
invariant. -/
theorem hlStepCore_inv {cfg : HLConfig} {detect : List α → Nat → Bool}
    {t : HLState α} (h : HLInv cfg t) : HLInv cfg (hlStepCore cfg detect t) := by
  obtain ⟨hord, hcws, hlpp, hends⟩ := h
  have hple : t.current_window_start ≤ hlAdjustedStart t := le_max_left _ _
  unfold hlStepCore
  by_cases h1 : t.cache.length < cfg.window_size
  · rw [if_pos h1]
    exact ⟨hord, hcws, hlpp, hends⟩
  rw [if_neg h1]
  by_cases h2 : t.cache.length < (hlAdjustedStart t - hlOffset t) + cfg.window_size
  · rw [if_pos h2]
    exact ⟨hord, fun e he => le_trans (hcws e he) hple, hlpp, hends⟩
  rw [if_neg h2]
  by_cases h3 : (hlAdjustedStart t : Int) ≤ t.last_processed_position
  · rw [if_pos h3]
    exact ⟨hord, fun e he => le_trans (hcws e he) hple, hlpp, hends⟩
  rw [if_neg h3]
  have h3' : t.last_processed_position < (hlAdjustedStart t : Int) := not_le.mp h3
  by_cases h4 : detect (hlWindow cfg t) (hlAdjustedStart t)
  · rw [if_pos h4]
    refine ⟨?_, ?_, ?_, ?_⟩
    · show List.Pairwise (fun a b => a.2 < b.1)
        (t.emitted ++ [(hlAdjustedStart t, hlAdjustedStart t + cfg.window_size - 1)])
      rw [List.pairwise_append]
      refine ⟨hord, List.pairwise_singleton _ _, ?_⟩
      intro a ha b hb
      rw [List.mem_singleton] at hb
      subst hb
      show a.2 < hlAdjustedStart t
      have ha1 := hcws a ha
      have ha2 := hlpp a ha
      have ha3 := hends a ha
      have halt : (a.1 : Int) < (hlAdjustedStart t : Int) := lt_of_le_of_lt ha2 h3'
      have halt' : a.1 < hlAdjustedStart t := by exact_mod_cast halt
      have hple' := hple
      omega
    · intro e he
      show e.1 + cfg.window_size ≤ hlAdjustedStart t + cfg.window_size
      rcases List.mem_append.mp he with he | he
      · have h5 := hcws e he
        have h6 := hple
        omega
      · rw [List.mem_singleton] at he
        subst he
        exact le_refl _
    · intro e he
      show (e.1 : Int) ≤ (hlAdjustedStart t : Int)
      rcases List.mem_append.mp he with he | he
      · exact le_trans (hlpp e he) (le_of_lt h3')
      · rw [List.mem_singleton] at he
        subst he
        exact le_refl _
    · intro e he
      show e.2 = e.1 + cfg.window_size - 1
      rcases List.mem_append.mp he with he | he
      · exact hends e he
      · rw [List.mem_singleton] at he
        subst he
        rfl
  · rw [if_neg h4]
    refine ⟨hord, ?_, ?_, hends⟩
    · intro e he
      show e.1 + cfg.window_size ≤ hlAdjustedStart t + cfg.slide_step
      have h5 := hcws e he
      have h6 := hple
      omega
    · intro e he
      show (e.1 : Int) ≤ (hlAdjustedStart t : Int)
      exact le_trans (hlpp e he) (le_of_lt h3')

/-- Folding the consumer step over any chunk list preserves the invariant. -/
theorem hlFold_inv (cfg : HLConfig) (detect : List α → Nat → Bool) :
    ∀ (chunks : List α) (s : HLState α), HLInv cfg s →
      HLInv cfg (chunks.foldl (hlStep cfg detect) s)
  | [], _, h => h
  | c :: rest, s, h =>
    hlFold_inv cfg detect rest (hlStep cfg detect s c)
      (hlStepCore_inv (hlArrive_inv c h))

/-- The initial consumer state satisfies the invariant. -/
theorem initHLState_inv (cfg : HLConfig) : HLInv cfg (initHLState (α := α)) :=
  ⟨List.Pairwise.nil, (fun e he => absurd he (List.not_mem_nil e)),
   (fun e he => absurd he (List.not_mem_nil e)),
   (fun e he => absurd he (List.not_mem_nil e))⟩

/-- Every reachable consumer state satisfies the invariant. -/
theorem hlRun_inv (cfg : HLConfig) (detect : List α → Nat → Bool)
    (chunks : List α) : HLInv cfg (hlRun cfg detect chunks) :=
  hlFold_inv cfg detect chunks _ (initHLState_inv cfg)

/--
C4: in the highlight consumer, whenever an iteration reaches the processing
step, the window start advances from the processed position by the full
`window_size` on a positive detection verdict and by `slide_step` on a
negative one; consequently, over every run, consecutively emitted highlight
artifacts have the last chunk index of the earlier source window strictly
below the first chunk index of the later one.
-/
theorem highlight_windows_advance_and_never_overlap (cfg : HLConfig)
    (detect : List α → Nat → Bool) :
    (∀ t : HLState α, hlProcesses cfg t = true →
      (hlStepCore cfg detect t).current_window_start =
        (if detect (hlWindow cfg t) (hlAdjustedStart t)
         then hlAdjustedStart t + cfg.window_size
         else hlAdjustedStart t + cfg.slide_step)) ∧
    (∀ chunks : List α,
      List.Chain' (fun a b => a.2 < b.1) (hlRun cfg detect chunks).emitted) := by
  constructor
  · intro t hp
    simp only [hlProcesses, Bool.and_eq_true, decide_eq_true_eq] at hp
    obtain ⟨⟨hp1, hp2⟩, hp3⟩ := hp
    unfold hlStepCore
    rw [if_neg (not_lt.mpr hp1), if_neg (not_lt.mpr hp2), if_neg (not_le.mpr hp3)]
    by_cases h4 : detect (hlWindow cfg t) (hlAdjustedStart t)
    · rw [if_pos h4, if_pos h4]
    · rw [if_neg h4, if_neg h4]
  · intro chunks
    exact (hlRun_inv cfg detect chunks).ordered.chain'

/--
Witness for C4: with `W = 3, S = 1`, an always-positive detector, and three
buffered chunks at window start 0, the iteration processes and the window
start advances to `0 + 3`; and the emitted windows of a six-chunk run are
non-overlapping.
-/
theorem highlight_windows_advance_witness :
    hlProcesses smallHLConfig
      ({ cache := [[0], [1], [2]], total_chunks_received := 3,
         current_window_start := 0, last_processed_position := -1,
         highlight_count := 0, emitted := [] } : HLState Bytes) = true ∧
    (hlStepCore smallHLConfig (fun _ _ => true)
      ({ cache := [[0], [1], [2]], total_chunks_received := 3,
         current_window_start := 0, last_processed_position := -1,
         highlight_count := 0, emitted := [] } : HLState Bytes)).current_window_start = 3 ∧
    List.Chain' (fun a b => a.2 < b.1)
      (hlRun smallHLConfig (fun _ _ => true)
        [[0], [1], [2], [3], [4], [5]]).emitted := by
  have h := highlight_windows_advance_and_never_overlap (α := Bytes)
    smallHLConfig (fun _ _ => true)
  refine ⟨by decide, ?_, h.2 [[0], [1], [2], [3], [4], [5]]⟩
  rw [h.1 _ (by decide)]
  decide

/--
C3 (evaluation at the failing input): when the ingest iterator fails after
two chunks, the producer still enqueues exactly one end-of-stream sentinel to
the highlight queue and one to the live queue, swallows the exception
(logging it), and the highlight consumer's run over that queue ends with the
`snippet_complete` message — the client receives no terminal `error` message
for the run.
-/
theorem ingest_failure_sentinels_but_no_client_error :
    sentinelCount (produce_chunks ingestFailureExample true).highlight_queue = 1 ∧
    sentinelCount ((produce_chunks ingestFailureExample true).live_queue.getD []) = 1 ∧
    (produce_chunks ingestFailureExample true).raised = false ∧
    (produce_chunks ingestFailureExample true).logged_error =
      some "yt-dlp exited with return code 1" ∧
    hlRunMessages defaultHLConfig (fun _ _ => false)
      (queueChunks (produce_chunks ingestFailureExample true).highlight_queue) =
      [ClientMsg.complete] := by
  refine ⟨by decide, by decide, by decide, by decide, by decide⟩

/-- Characterization of the audio-collection loop with `n` chunks already
collected (`n < 60`): it consumes up to `60 - n` further events, and when the
events run out first it finishes at the turn-complete time. -/
theorem collectAudioGo_spec :
    ∀ (evs : List (Nat × Bytes)) (n endT : Nat), n < 60 →
      collectAudioGo evs n endT =
        ((evs.take (60 - n)).map Prod.snd, (evs[59 - n]?.map Prod.fst).getD endT)
  | [], n, endT, _ => by simp [collectAudioGo]
  | (tm, ch) :: rest, n, endT, h => by
    by_cases h60 : 60 ≤ n + 1
    · have hn : n = 59 := by omega
      subst hn
      simp [collectAudioGo]
    · have h1 : n + 1 < 60 := by omega
      have ih := collectAudioGo_spec rest (n + 1) endT h1
      have e1 : 60 - n = (60 - (n + 1)) + 1 := by omega
      have e2 : 59 - n = (59 - (n + 1)) + 1 := by omega
      simp only [collectAudioGo, if_neg h60, ih, e1, e2, List.take_succ_cons,
        List.map_cons, List.getElem?_cons_succ]

/--
C8 as amended: the audio-collection phase of one live-commentary window
terminates at the upstream turn-complete or after a soft cap of 60 PCM
chunks — it collects exactly the first (up to) 60 chunks, and when fewer
than 60 arrive it ends precisely when the turn-complete does (there is no
wall-clock timeout in this consumer); and a window whose collected audio is
empty is skipped — its processing leaves the consumer state unchanged, so no
CommentaryChunk is emitted for it, and the loop goes on to the next window.
-/
theorem live_audio_cap_and_empty_skip :
    (∀ t : AudioTurn,
      (collectAudio t).1 = (t.events.take 60).map Prod.snd ∧
      (collectAudio t).2 = (t.events[59]?.map Prod.fst).getD t.endTime) ∧
    (∀ (oracle : LiveOracle) (st : LiveState) (combined : List Bytes),
      ((collectAudio (oracle.audio st.chunk_number)).1).flatten = [] →
      liveProcessWindow oracle st combined = st) := by
  constructor
  · intro t
    have h := collectAudioGo_spec t.events 0 t.endTime (by omega)
    rw [collectAudio, h]
    exact ⟨rfl, rfl⟩
  · intro oracle st combined h
    simp [liveProcessWindow, h]

/--
C8 counterexample: with one audio chunk arriving at t = 0 and the
turn-complete only at t = 100 s, the collection phase of the live commentary
consumer runs until t = 100 — far past the claimed 10-second hard cap — and
the window is then emitted, not skipped: the code contains no timeout.
-/
theorem live_audio_no_timeout_counterexample :
    (collectAudio (liveOracleSlowTurn.audio 1)).2 = 100 ∧
    ¬ (collectAudio (liveOracleSlowTurn.audio 1)).2 ≤ 10 ∧
    (liveProcessWindow liveOracleSlowTurn
      { chunk_number := 1, chunk_buffer := [], emitted := [], terminated := false }
      [[0], [1]]).emitted = [(1, [[0], [1]])] := by
  refine ⟨by decide, by decide, by decide⟩

/--
Witness for C8: a window whose live session returns no audio (window 1 of
`liveOracleNoAudioFirst`) is processed without any emission — the state is
returned unchanged.
-/
theorem live_audio_empty_skip_witness :
    liveProcessWindow liveOracleNoAudioFirst
      { chunk_number := 1, chunk_buffer := [], emitted := [], terminated := false }
      [[0], [1]] =
    { chunk_number := 1, chunk_buffer := [], emitted := [], terminated := false } :=
  live_audio_cap_and_empty_skip.2 liveOracleNoAudioFirst
    { chunk_number := 1, chunk_buffer := [], emitted := [], terminated := false }
    [[0], [1]] (by decide)

/-- A chunk arriving at an empty pair buffer is buffered. -/
theorem liveConsume_cons_empty (oracle : LiveOracle) (c : Bytes)
    (rest : List (Option Bytes)) (n : Nat) (E : List (Nat × List Bytes)) (b : Bool) :
    liveConsume oracle (some c :: rest)
      { chunk_number := n, chunk_buffer := [], emitted := E, terminated := b } =
    liveConsume oracle rest
      { chunk_number := n, chunk_buffer := [c], emitted := E, terminated := b } := by
  simp [liveConsume]

/-- A chunk arriving at a one-chunk pair buffer completes the pair, which is
processed as the next window. -/
theorem liveConsume_cons_one (oracle : LiveOracle) (c0 c : Bytes)
    (rest : List (Option Bytes)) (n : Nat) (E : List (Nat × List Bytes)) (b : Bool) :
    liveConsume oracle (some c :: rest)
      { chunk_number := n, chunk_buffer := [c0], emitted := E, terminated := b } =
    liveConsume oracle rest
      (liveProcessWindow oracle
        { chunk_number := n + 1, chunk_buffer := [], emitted := E, terminated := b }
        [c0, c]) := by
  simp [liveConsume]

/-- The sentinel with a buffered chunk: that chunk is processed alone as a
single-chunk window and the loop keeps dequeueing. -/
theorem liveConsume_sentinel_one (oracle : LiveOracle) (c0 : Bytes)
    (rest : List (Option Bytes)) (n : Nat) (E : List (Nat × List Bytes)) (b : Bool) :
    liveConsume oracle (none :: rest)
      { chunk_number := n, chunk_buffer := [c0], emitted := E, terminated := b } =
    liveConsume oracle rest
      (liveProcessWindow oracle
        { chunk_number := n + 1, chunk_buffer := [], emitted := E, terminated := b }
        [c0]) := by
  simp [liveConsume]

/-- The sentinel with an empty pair buffer breaks the loop. -/
theorem liveConsume_sentinel_empty (oracle : LiveOracle)
    (rest : List (Option Bytes)) (n : Nat) (E : List (Nat × List Bytes)) (b : Bool) :
    liveConsume oracle (none :: rest)
      { chunk_number := n, chunk_buffer := [], emitted := E, terminated := b } =
    { chunk_number := n, chunk_buffer := [], emitted := E, terminated := true } := by
  simp [liveConsume]

/-- A window that yields frames, non-empty audio and a raise-free tail is
emitted. -/
theorem liveProcessWindow_emit (oracle : LiveOracle) (n : Nat)
    (E : List (Nat × List Bytes)) (b : Bool) (combined : List Bytes)
    (hf : oracle.extract_frames combined ≠ [])
    (ha : ((collectAudio (oracle.audio n)).1).flatten ≠ [])
    (ht : oracle.raises n = false) :
    liveProcessWindow oracle
      { chunk_number := n, chunk_buffer := [], emitted := E, terminated := b }
      combined =
    { chunk_number := n, chunk_buffer := [], emitted := E ++ [(n, combined)],
      terminated := b } := by
  simp [liveProcessWindow, hf, ha, ht]

/-- When every window gets frames, non-empty audio and a raise-free tail,
the live consumer run starting at window counter `n` with an empty buffer
emits exactly the pair-windows of the remaining chunks, numbered from
`n + 1`. -/
theorem liveConsume_pairs (oracle : LiveOracle)
    (hf : ∀ cs, oracle.extract_frames cs ≠ [])
    (ha : ∀ n, ((collectAudio (oracle.audio n)).1).flatten ≠ [])
    (ht : ∀ n, oracle.raises n = false) :
    ∀ (cs : List Bytes) (n : Nat) (E : List (Nat × List Bytes)) (b : Bool),
      (liveConsume oracle (cs.map some ++ [none])
        { chunk_number := n, chunk_buffer := [], emitted := E,
          terminated := b }).emitted =
        E ++ pairWindows cs (n + 1)
  | [], n, E, b => by
    show (liveConsume oracle [none]
      { chunk_number := n, chunk_buffer := [], emitted := E, terminated := b }).emitted = _
    rw [liveConsume_sentinel_empty]
    simp [pairWindows]
  | [c], n, E, b => by
    show (liveConsume oracle (some c :: [none])
      { chunk_number := n, chunk_buffer := [], emitted := E, terminated := b }).emitted = _
    rw [liveConsume_cons_empty, liveConsume_sentinel_one,
      liveProcessWindow_emit oracle (n + 1) E b [c] (hf [c]) (ha (n + 1)) (ht (n + 1))]
    show E ++ [(n + 1, [c])] = _
    simp [pairWindows]
  | c1 :: c2 :: rest, n, E, b => by
    show (liveConsume oracle (some c1 :: some c2 :: (rest.map some ++ [none]))
      { chunk_number := n, chunk_buffer := [], emitted := E, terminated := b }).emitted = _
    rw [liveConsume_cons_empty, liveConsume_cons_one,
      liveProcessWindow_emit oracle (n + 1) E b [c1, c2] (hf [c1, c2]) (ha (n + 1))
        (ht (n + 1)),
      liveConsume_pairs oracle hf ha ht rest (n + 1) (E ++ [(n + 1, [c1, c2])]) b]
    simp [pairWindows]

/-- Processing the next window (counter bumped, buffer cleared) preserves
the live consumer invariant, whether the window is emitted or skipped for
any of the three skip causes. -/
theorem liveProcessWindow_bump_inv (oracle : LiveOracle) (st : LiveState)
    (combined : List Bytes) (h : LiveInv st) :
    LiveInv (liveProcessWindow oracle
      { st with chunk_number := st.chunk_number + 1, chunk_buffer := [] }
      combined) := by
  obtain ⟨hord, hle⟩ := h
  have hle' : ∀ e ∈ st.emitted, e.1 ≤ st.chunk_number + 1 :=
    fun e he => le_trans (hle e he) (Nat.le_succ _)
  unfold liveProcessWindow
  split
  · exact ⟨hord, hle'⟩
  split
  · exact ⟨hord, hle'⟩
  split
  · exact ⟨hord, hle'⟩
  refine ⟨?_, ?_⟩
  · show List.Pairwise (fun a b => a.1 < b.1)
      (st.emitted ++ [(st.chunk_number + 1, combined)])
    rw [List.pairwise_append]
    refine ⟨hord, List.pairwise_singleton _ _, ?_⟩
    intro a ha b hb
    rw [List.mem_singleton] at hb
    subst hb
    exact Nat.lt_succ_of_le (hle a ha)
  · intro e he
    show e.1 ≤ st.chunk_number + 1
    rcases List.mem_append.mp he with he | he
    · exact hle' e he
    · rw [List.mem_singleton] at he
      subst he
      exact le_refl _

/-- Every step of the live consumer loop preserves the invariant. -/
theorem liveConsume_inv (oracle : LiveOracle) :
    ∀ (items : List (Option Bytes)) (st : LiveState), LiveInv st →
      LiveInv (liveConsume oracle items st)
  | [], _, h => h
  | none :: rest, st, h => by
    simp only [liveConsume]
    split
    · exact ⟨h.ordered, h.le_num⟩
    · exact liveConsume_inv oracle rest _
        (liveProcessWindow_bump_inv oracle st st.chunk_buffer h)
  | some c :: rest, st, h => by
    simp only [liveConsume]
    split
    · exact liveConsume_inv oracle rest _ ⟨h.ordered, h.le_num⟩
    · exact liveConsume_inv oracle rest _
        (liveProcessWindow_bump_inv oracle st (st.chunk_buffer ++ [c]) h)

/-- Every reachable live-consumer state satisfies the invariant. -/
theorem liveRun_inv (oracle : LiveOracle) (chunks : List Bytes) :
    LiveInv (liveRun oracle chunks) :=
  liveConsume_inv oracle (chunks.map some ++ [none]) initLiveState
    ⟨List.Pairwise.nil, fun e he => absurd he (List.not_mem_nil e)⟩

/-- The window numbers produced by `pairWindows cs n` are exactly the
consecutive integers starting at `n`. -/
theorem pairWindows_map_fst :
    ∀ (cs : List Bytes) (n : Nat),
      (pairWindows cs n).map Prod.fst = List.range' n (pairWindows cs n).length
  | [], n => by simp [pairWindows]
  | [c], n => by simp [pairWindows, List.range']
  | c1 :: c2 :: rest, n => by
    have ih := pairWindows_map_fst rest (n + 1)
    simp [pairWindows, ih, List.range'_succ]

/--
C5 as amended: in every run of the live commentary consumer — including
runs in which windows are skipped for empty frames, empty audio, or a
per-window exception — the emitted `chunk_number` values are strictly
increasing; and over a run in which no window is skipped (every window
yields frames, non-empty audio, and a raise-free stitch/fragment/send
tail), the consumer emits exactly one CommentaryChunk per window —
consecutive pairs of base chunks, with the final chunk processed alone when
the chunk count is odd — and the emitted `chunk_number` values are exactly
the consecutive integers starting at 1.
-/
theorem live_chunk_numbers_pairs :
    (∀ (oracle : LiveOracle) (chunks : List Bytes),
      List.Chain' (fun a b => a < b)
        ((liveRun oracle chunks).emitted.map Prod.fst)) ∧
    (∀ (oracle : LiveOracle) (chunks : List Bytes),
      (∀ cs, oracle.extract_frames cs ≠ []) →
      (∀ n, ((collectAudio (oracle.audio n)).1).flatten ≠ []) →
      (∀ n, oracle.raises n = false) →
      (liveRun oracle chunks).emitted = pairWindows chunks 1 ∧
      (liveRun oracle chunks).emitted.map Prod.fst =
        List.range' 1 (liveRun oracle chunks).emitted.length) := by
  constructor
  · intro oracle chunks
    have h := (liveRun_inv oracle chunks).ordered
    exact (List.pairwise_map.mpr h).chain'
  · intro oracle chunks hf ha ht
    have h := liveConsume_pairs oracle hf ha ht chunks 0 [] false
    have h1 : (liveRun oracle chunks).emitted = pairWindows chunks 1 := by
      simpa [liveRun, initLiveState] using h
    refine ⟨h1, ?_⟩
    rw [h1]
    exact pairWindows_map_fst chunks 1

/--
C5 counterexample: in a run of four base chunks in which the live session
returns no audio for the first window (a skip the code explicitly performs),
the emitted `chunk_number` values are `[2]` — they do not form a sequence
starting at 1, contradicting the claim as stated for every run.
-/
theorem live_chunk_numbers_skip_counterexample :
    (liveRun liveOracleNoAudioFirst [[0], [1], [2], [3]]).emitted.map Prod.fst = [2] ∧
    ((liveRun liveOracleNoAudioFirst [[0], [1], [2], [3]]).emitted.map
      Prod.fst).head? ≠ some 1 := by
  refine ⟨by decide, by decide⟩

/--
Witness for C5: five base chunks with an always-successful oracle emit the
windows `1` (chunks 0+1), `2` (chunks 2+3) and `3` (chunk 4 alone), and
their numbers are strictly increasing.
-/
theorem live_chunk_numbers_pairs_witness :
    (liveRun liveOracleOk [[0], [1], [2], [3], [4]]).emitted =
      [(1, [[0], [1]]), (2, [[2], [3]]), (3, [[4]])] ∧
    List.Chain' (fun a b => a < b)
      ((liveRun liveOracleOk [[0], [1], [2], [3], [4]]).emitted.map Prod.fst) := by
  have h := (live_chunk_numbers_pairs.2 liveOracleOk [[0], [1], [2], [3], [4]]
    (fun cs => by simp [liveOracleOk])
    (fun n => by
      change ((collectAudio { events := [(0, [1])], endTime := 0 }).1).flatten ≠ []
      decide)
    (fun n => rfl)).1
  refine ⟨?_, live_chunk_numbers_pairs.1 liveOracleOk [[0], [1], [2], [3], [4]]⟩
  rw [h]
  rfl

end Sportsclips
